import Mathlib

/-!
Verification of the WebSocket message protocol and workflow-engine
properties of the ensimu.space repository.

The frontend protocol code (`src/frontend/src/utils/websocketUtils.ts`,
`src/frontend/src/hooks/useWebSocket.ts`, `src/frontend/src/hooks/useWorkflow.ts`)
is shallowly embedded below.  JavaScript runtime values that can appear in
messages are modelled by the `Json` inductive; the platform primitives
`JSON.stringify` / `JSON.parse` are modelled by an executable printer and an
executable recursive-descent parser over that value type (numbers are
modelled as integers and the parser accepts the whitespace-free documents the
printer produces).  Nondeterministic platform inputs (`Date.now()`,
`new Date().toISOString()`, `Math.random().toString(36).substr(2, 9)`) are
passed as explicit arguments.
-/

set_option maxHeartbeats 1000000

namespace EnsimuSpace

/-- JavaScript/JSON values as they appear in WebSocket messages.  Numbers are
modelled as integers (the protocol's identifier and counter fields); `obj`
keeps fields in insertion order, matching JavaScript object semantics. -/
inductive Json where
  | null : Json
  | bool (b : Bool) : Json
  | num (n : Int) : Json
  | str (s : String) : Json
  | arr (elems : List Json) : Json
  | obj (fields : List (String × Json)) : Json

/-- Is this value JavaScript `null`? -/
def isNull : Json → Bool
  | Json.null => true
  | _ => false

/-- JavaScript `typeof` on a `Json` value (note `typeof null === "object"`,
and arrays are of object type). -/
def jsTypeof : Json → String
  | Json.null => "object"
  | Json.bool _ => "boolean"
  | Json.num _ => "number"
  | Json.str _ => "string"
  | Json.arr _ => "object"
  | Json.obj _ => "object"

/-- JavaScript truthiness of a value. -/
def truthy : Json → Bool
  | Json.null => false
  | Json.bool b => b
  | Json.num n => n != 0
  | Json.str s => s ≠ ""
  | Json.arr _ => true
  | Json.obj _ => true

/-- Last-binding lookup in an object's field list (JavaScript objects built
from JSON keep the last duplicate key). -/
def lookupLast (k : String) : List (String × Json) → Option Json
  | [] => none
  | kv :: rest =>
    match lookupLast k rest with
    | some v => some v
    | none => if kv.1 = k then some kv.2 else none

/-- JavaScript property access `v[k]`; `none` models `undefined`. -/
def getField (v : Json) (k : String) : Option Json :=
  match v with
  | Json.obj kvs => lookupLast k kvs
  | _ => none

/-- Truthiness of a possibly-`undefined` value. -/
def truthyOpt : Option Json → Bool
  | none => false
  | some v => truthy v

/-- `typeof` of a possibly-`undefined` value. -/
def jsTypeofOpt : Option Json → String
  | none => "undefined"
  | some v => jsTypeof v

/-- JavaScript `x || d` on a possibly-`undefined` value. -/
def jsOrDefault (v : Option Json) (d : Json) : Json :=
  match v with
  | none => d
  | some x => if truthy x then x else d

/-- Decimal digit character (`48 + d` is ASCII `0`–`9` for `d < 10`). -/
def digitChar (d : Nat) : Char := Char.ofNat (48 + d)

/-- Decimal representation of a natural number, most significant digit
first. -/
def natChars (m : Nat) : List Char :=
  if m = 0 then ['0'] else (Nat.digits 10 m).reverse.map digitChar

/-- Decimal representation of an integer. -/
def intChars (n : Int) : List Char :=
  if n < 0 then '-' :: natChars n.natAbs else natChars n.toNat

/-- Lower-case hexadecimal digit character. -/
def hexChar (d : Nat) : Char :=
  if d < 10 then Char.ofNat (48 + d) else Char.ofNat (87 + d)

/-- JSON string escaping of one character: `"` and `\` get a backslash
escape, control characters a `\u00XX` escape, everything else is literal. -/
def escapeChar (c : Char) : List Char :=
  if c = '"' then ['\\', '"']
  else if c = '\\' then ['\\', '\\']
  else if c.toNat < 32 then
    ['\\', 'u', '0', '0', hexChar (c.toNat / 16), hexChar (c.toNat % 16)]
  else [c]

/-- Escape a whole character list. -/
def escapeList : List Char → List Char
  | [] => []
  | c :: cs => escapeChar c ++ escapeList cs

/-- Printed form of a JSON string (quotes plus escaped body). -/
def stringChars (s : List Char) : List Char :=
  '"' :: (escapeList s ++ ['"'])

mutual

/-- `JSON.stringify` on a `Json` value (no whitespace, like the platform
function with no spacing argument). -/
def printV : Json → List Char
  | Json.null => ['n', 'u', 'l', 'l']
  | Json.bool true => ['t', 'r', 'u', 'e']
  | Json.bool false => ['f', 'a', 'l', 's', 'e']
  | Json.num n => intChars n
  | Json.str s => stringChars s.data
  | Json.arr xs => '[' :: (printElems xs ++ [']'])
  | Json.obj kvs => '\x7b' :: (printFields kvs ++ ['\x7d'])

/-- Comma-separated printed array elements. -/
def printElems : List Json → List Char
  | [] => []
  | [x] => printV x
  | x :: y :: ys => printV x ++ ',' :: printElems (y :: ys)

/-- Comma-separated printed object fields. -/
def printFields : List (String × Json) → List Char
  | [] => []
  | [kv] => stringChars kv.1.data ++ ':' :: printV kv.2
  | kv :: f :: fs => stringChars kv.1.data ++ ':' :: printV kv.2 ++ ',' :: printFields (f :: fs)

end

/-- `JSON.stringify` producing a `String`. -/
def printJson (v : Json) : String := String.mk (printV v)

/-- Value of a hexadecimal digit character, `none` for non-hex characters. -/
def hexVal (c : Char) : Option Nat :=
  if c.isDigit then some (c.toNat - 48)
  else if 'a' ≤ c ∧ c ≤ 'f' then some (c.toNat - 87)
  else if 'A' ≤ c ∧ c ≤ 'F' then some (c.toNat - 55)
  else none

/-- Unescaped value of a single-character JSON escape. -/
def unescapeSimple (e : Char) : Option Char :=
  if e = '"' then some '"'
  else if e = '\\' then some '\\'
  else if e = '/' then some '/'
  else if e = 'b' then some (Char.ofNat 8)
  else if e = 'f' then some (Char.ofNat 12)
  else if e = 'n' then some (Char.ofNat 10)
  else if e = 'r' then some (Char.ofNat 13)
  else if e = 't' then some (Char.ofNat 9)
  else none

/-- Parse the body of a JSON string up to and including the closing quote,
returning the decoded characters and the remaining input. -/
def parseStringBody : List Char → Option (List Char × List Char)
  | [] => none
  | c :: rest =>
    if c = '"' then some ([], rest)
    else if c = '\\' then
      match rest with
      | [] => none
      | e :: rest2 =>
        if e = 'u' then
          match rest2 with
          | h1 :: h2 :: h3 :: h4 :: rest3 =>
            match hexVal h1, hexVal h2, hexVal h3, hexVal h4 with
            | some a, some b, some d, some e2 =>
              (parseStringBody rest3).map
                (fun p => (Char.ofNat (((a * 16 + b) * 16 + d) * 16 + e2) :: p.1, p.2))
            | _, _, _, _ => none
          | _ => none
        else
          match unescapeSimple e with
          | some u => (parseStringBody rest2).map (fun p => (u :: p.1, p.2))
          | none => none
    else (parseStringBody rest).map (fun p => (c :: p.1, p.2))

/-- Big-endian decimal value of a digit-character list. -/
def digitsVal (ds : List Char) : Nat :=
  ds.foldl (fun a c => a * 10 + (c.toNat - 48)) 0

/-- Parse a JSON number (integer subset: optional minus sign then digits). -/
def parseNumber : List Char → Option (Json × List Char)
  | [] => none
  | c :: rest =>
    if c = '-' then
      let ds := rest.takeWhile Char.isDigit
      if ds = [] then none
      else some (Json.num (-(digitsVal ds : Int)), rest.dropWhile Char.isDigit)
    else
      let ds := (c :: rest).takeWhile Char.isDigit
      if ds = [] then none
      else some (Json.num ((digitsVal ds : Int)), (c :: rest).dropWhile Char.isDigit)

mutual

/-- Fuel-bounded recursive-descent parser for one JSON value, returning the
value and the remaining input. -/
def parseValue : Nat → List Char → Option (Json × List Char)
  | 0, _ => none
  | fuel + 1, s =>
    match s with
    | [] => none
    | c :: rest =>
      if c = '"' then (parseStringBody rest).map (fun p => (Json.str (String.mk p.1), p.2))
      else if c = '[' then (parseElems fuel rest).map (fun p => (Json.arr p.1, p.2))
      else if c = '\x7b' then (parseFields fuel rest).map (fun p => (Json.obj p.1, p.2))
      else if c = 'n' then
        match rest with
        | 'u' :: 'l' :: 'l' :: r => some (Json.null, r)
        | _ => none
      else if c = 't' then
        match rest with
        | 'r' :: 'u' :: 'e' :: r => some (Json.bool true, r)
        | _ => none
      else if c = 'f' then
        match rest with
        | 'a' :: 'l' :: 's' :: 'e' :: r => some (Json.bool false, r)
        | _ => none
      else parseNumber (c :: rest)

/-- Parse array elements after the opening bracket, consuming the closing
bracket. -/
def parseElems : Nat → List Char → Option (List Json × List Char)
  | 0, _ => none
  | fuel + 1, s =>
    match s with
    | [] => none
    | c :: rest =>
      if c = ']' then some ([], rest)
      else
        match parseValue fuel (c :: rest) with
        | none => none
        | some (v, r) =>
          match r with
          | ',' :: r2 =>
            match parseElems fuel r2 with
            | none => none
            | some (vs, r3) => some (v :: vs, r3)
          | ']' :: r2 => some ([v], r2)
          | _ => none

/-- Parse object fields after the opening brace, consuming the closing
brace. -/
def parseFields : Nat → List Char → Option (List (String × Json) × List Char)
  | 0, _ => none
  | fuel + 1, s =>
    match s with
    | [] => none
    | c :: rest =>
      if c = '\x7d' then some ([], rest)
      else if c ≠ '"' then none
      else
      match parseStringBody rest with
      | none => none
      | some (kcs, r1) =>
        match r1 with
        | ':' :: r2 =>
          match parseValue fuel r2 with
          | none => none
          | some (v, r3) =>
            match r3 with
            | ',' :: r4 =>
              match parseFields fuel r4 with
              | none => none
              | some (fs, r5) => some ((String.mk kcs, v) :: fs, r5)
            | '\x7d' :: r4 => some ([(String.mk kcs, v)], r4)
            | _ => none
        | _ => none

end

/-- `JSON.parse` modelled on the whitespace-free integer-number subset of
JSON: parse one value and require the whole input to be consumed; `none`
models a thrown `SyntaxError`. -/
def parseJson (s : String) : Option Json :=
  match parseValue (s.data.length + 1) s.data with
  | some (v, []) => some v
  | _ => none

/-! ### The message protocol utilities of `websocketUtils.ts` -/

/-- The `MessageType` enum of `websocketUtils.ts`. -/
inductive MessageType where
  | connectionEstablished
  | heartbeat
  | error
  | agentStateUpdate
  | agentActionRequest
  | agentActionResponse
  | workflowStatusUpdate
  | workflowStepComplete
  | workflowError
  | hitlCheckpointCreated
  | hitlResponseRequired
  | hitlResponseSubmitted
  | userMessage
  | predictionRequest
  | predictionResponse
  | stateChange

/-- The string value of each `MessageType` enum member. -/
def messageTypeStr : MessageType → String
  | MessageType.connectionEstablished => "connection_established"
  | MessageType.heartbeat => "heartbeat"
  | MessageType.error => "error"
  | MessageType.agentStateUpdate => "agent_state_update"
  | MessageType.agentActionRequest => "agent_action_request"
  | MessageType.agentActionResponse => "agent_action_response"
  | MessageType.workflowStatusUpdate => "workflow_status_update"
  | MessageType.workflowStepComplete => "workflow_step_complete"
  | MessageType.workflowError => "workflow_error"
  | MessageType.hitlCheckpointCreated => "hitl_checkpoint_created"
  | MessageType.hitlResponseRequired => "hitl_response_required"
  | MessageType.hitlResponseSubmitted => "hitl_response_submitted"
  | MessageType.userMessage => "user_message"
  | MessageType.predictionRequest => "prediction_request"
  | MessageType.predictionResponse => "prediction_response"
  | MessageType.stateChange => "state_change"

/-- The generated id `msg_${Date.now()}_${Math.random().toString(36).substr(2, 9)}`;
`nowMillis` models `Date.now()` and `rand` the random base-36 suffix. -/
def mkMsgId (nowMillis : Nat) (rand : String) : String :=
  "msg_" ++ String.mk (natChars nowMillis) ++ "_" ++ rand

/-- `messageId || generated`: an explicitly passed id is used unless it is
absent or falsy (the empty string). -/
def genMessageId (messageId : Option String) (nowMillis : Nat) (rand : String) : String :=
  match messageId with
  | some mid => if mid = "" then mkMsgId nowMillis rand else mid
  | none => mkMsgId nowMillis rand

/-- `createStandardMessage(type, data, messageId?)` from `websocketUtils.ts`.
The returned object literal is modelled as a JSON object in insertion order;
`isoNow` models `new Date().toISOString()`. -/
def createStandardMessage (type : MessageType) (data : Json) (messageId : Option String)
    (nowMillis : Nat) (rand : String) (isoNow : String) : Json :=
  Json.obj [("type", Json.str (messageTypeStr type)),
    ("data", data),
    ("timestamp", Json.str isoNow),
    ("message_id", Json.str (genMessageId messageId nowMillis rand))]

/-- `validateMessage(message)` from `websocketUtils.ts`: requires an object
(and not `null`), a truthy string `type`, and a truthy `data` of object
type. -/
def validateMessage (message : Json) : Bool :=
  if (jsTypeof message != "object") || isNull message then false
  else if !truthyOpt (getField message "type")
      || (jsTypeofOpt (getField message "type") != "string") then false
  else if !truthyOpt (getField message "data")
      || (jsTypeofOpt (getField message "data") != "object") then false
  else true

/-- `parseWebSocketMessage(data)` from `websocketUtils.ts`: `JSON.parse`
inside `try`/`catch` (a thrown parse error is caught and `null` returned),
then structural validation; invalid structure also returns `null`. -/
def parseWebSocketMessage (data : String) : Option Json :=
  match parseJson data with
  | none => none
  | some parsed => if validateMessage parsed then some parsed else none

/-- `createHeartbeatMessage()` from `websocketUtils.ts`: a heartbeat message
whose data carries `client_time`. -/
def createHeartbeatMessage (clientIso : String) (nowMillis : Nat) (rand : String)
    (isoNow : String) : Json :=
  createStandardMessage MessageType.heartbeat
    (Json.obj [("client_time", Json.str clientIso)]) none nowMillis rand isoNow

/-- The `{ approved, feedback }` object literal of
`createHITLResponseMessage`.  An omitted `feedback` leaves the property
`undefined`, observationally the absent field. -/
def hitlResponseData (approved : Bool) (feedback : Option String) : Json :=
  Json.obj ([("approved", Json.bool approved)] ++
    (match feedback with
     | some fb => [("feedback", Json.str fb)]
     | none => []))

/-- `createHITLResponseMessage(checkpointId, approved, feedback?)` from
`websocketUtils.ts`. -/
def createHITLResponseMessage (checkpointId : String) (approved : Bool)
    (feedback : Option String) (nowMillis : Nat) (rand : String) (isoNow : String) : Json :=
  createStandardMessage MessageType.hitlResponseSubmitted
    (Json.obj [("checkpoint_id", Json.str checkpointId),
      ("response_data", hitlResponseData approved feedback)])
    none nowMillis rand isoNow

/-- The record returned by `extractErrorDetails`. -/
structure ErrorDetails where
  error : Json
  details : Option Json
  messageType : Option Json

/-- `extractErrorDetails(message)` from `websocketUtils.ts`: throws
(`Except.error`) unless `message.type` is the string `"error"`; otherwise
returns `data.error || 'Unknown error'`, `data.details`, and
`data.message_type`.  Reading a property of an absent or `null` `data`
would be a JavaScript `TypeError`, also modelled as `Except.error`. -/
def extractErrorDetails (message : Json) : Except String ErrorDetails :=
  match getField message "type" with
  | some (Json.str t) =>
    if t ≠ "error" then Except.error "Message is not an error message"
    else
      match getField message "data" with
      | none => Except.error "TypeError"
      | some d =>
        if isNull d then Except.error "TypeError"
        else Except.ok ⟨jsOrDefault (getField d "error") (Json.str "Unknown error"),
          getField d "details", getField d "message_type"⟩
  | _ => Except.error "Message is not an error message"

/-! ### The send paths and heartbeat of `useWebSocket.ts` -/

/-- WebSocket ready states (`WebSocket.OPEN` is `opened` here). -/
inductive ReadyState where
  | connecting
  | opened
  | closing
  | closed
  deriving DecidableEq

/-- The socket object held in `wsRef.current` (an `Option` at the call
sites, since the reference may be `null`). -/
structure WSRef where
  readyState : ReadyState

/-- `sendRawMessage(message)` from `useWebSocket.ts`: returns `false`
without transmitting when the socket reference is absent or not open, or
when validation fails; otherwise transmits the JSON serialization and
returns `true`.  The second component lists the frames transmitted. -/
def sendRawMessage (ws : Option WSRef) (message : Json) : Bool × List String :=
  match ws with
  | none => (false, [])
  | some w =>
    match w.readyState with
    | ReadyState.opened =>
      if !validateMessage message then (false, [])
      else (true, [printJson message])
    | _ => (false, [])

/-- `sendMessage(type, data)` from `useWebSocket.ts`: returns `false`
without transmitting when the socket reference is absent or not open;
otherwise builds a standard message and transmits its serialization. -/
def sendMessage (ws : Option WSRef) (type : MessageType) (data : Json)
    (nowMillis : Nat) (rand : String) (isoNow : String) : Bool × List String :=
  match ws with
  | none => (false, [])
  | some w =>
    match w.readyState with
    | ReadyState.opened =>
      (true, [printJson (createStandardMessage type data none nowMillis rand isoNow)])
    | _ => (false, [])

/-- The default `heartbeatInterval` option of `useWebSocket` (30000 ms). -/
def defaultHeartbeatInterval : Nat := 30000

/-- `sendHeartbeat` from `useWebSocket.ts`: emits one heartbeat frame when
the socket is open, nothing otherwise. -/
def sendHeartbeat (ws : Option WSRef) (clientIso : String) (nowMillis : Nat) (rand : String)
    (isoNow : String) : List String :=
  match ws with
  | some w =>
    match w.readyState with
    | ReadyState.opened =>
      [printJson (createHeartbeatMessage clientIso nowMillis rand isoNow)]
    | _ => []
  | none => []

/-- `startHeartbeat` installs `setInterval(sendHeartbeat, heartbeatInterval)`:
the timer fires at times `(k+1) * interval` after installation. -/
def heartbeatFireTime (interval : Nat) (k : Nat) : Nat := (k + 1) * interval

/-! ### Connection parameters (`useWorkflow.ts`) and the server-side
connection validation -/

/-- `WebSocketConnectionParams` from `websocketUtils.ts`. -/
structure WebSocketConnectionParams where
  user_id : String
  project_id : String
  workflow_id : Option String

/-- The `connectionParams` built by `useWorkflow(projectId?, userId = 'anonymous')`
in `useWorkflow.ts`: `user_id: userId, project_id: projectId || 'default'`.
A caller that omits `userId` gets the default parameter `'anonymous'`;
`projectId || 'default'` substitutes `'default'` when `projectId` is
`undefined` or the empty string. -/
def useWorkflowConnectionParams (projectId : Option String) (userId : Option String) :
    WebSocketConnectionParams :=
  WebSocketConnectionParams.mk (userId.getD "anonymous")
    (match projectId with
     | none => "default"
     | some p => if p = "" then "default" else p)
    none

/-- Decision of the server on a connection attempt. -/
inductive ConnectDecision where
  | accepted
  | refused (code : Nat) (reason : String)
  deriving DecidableEq

/-- Modelled from the spec: the backend WebSocket endpoint's connection
validation is not under `src/` (only `src/docs/websocket-protocol-specification.md`
documents it).  Per the spec, a missing or empty `user_id` or `project_id`
refuses the connection immediately (close code 1008) with a distinct
machine-readable reason naming the missing parameter, before any message
exchange; with both present, any optional `workflow_id` is accepted. -/
def validateConnectionParams (userId : Option String) (projectId : Option String)
    (_workflowId : Option String) : ConnectDecision :=
  match userId with
  | none => ConnectDecision.refused 1008 "Invalid parameters: user_id parameter is required"
  | some u =>
    if u = "" then
      ConnectDecision.refused 1008 "Invalid parameters: user_id parameter is required"
    else
      match projectId with
      | none =>
        ConnectDecision.refused 1008 "Invalid parameters: project_id parameter is required"
      | some p =>
        if p = "" then
          ConnectDecision.refused 1008 "Invalid parameters: project_id parameter is required"
        else ConnectDecision.accepted

/-- Modelled from the spec: the server-side liveness timeout.  The client
code in `useWebSocket.ts` has no inbound-traffic timer; the 60 s timeout
window is the server behaviour documented in the spec and in
`src/docs/websocket-protocol-specification.md`. -/
def heartbeatTimeoutMs : Nat := 60000

/-- Modelled from the spec: the channel is considered dead (and closed) when
no inbound traffic has been observed within the timeout window. -/
def channelDead (lastInbound now : Nat) : Bool :=
  lastInbound + heartbeatTimeoutMs ≤ now

/-! ### Modelled from the spec: the Workflow Engine step loop

The LangGraph-based engine (`backend/app/libs/langgraph_workflow.py`) is not
under `src/`; only the frontend iteration-tracking state
(`useSimulationState`, `iterationCount` with `maxIterations = 3`) and
documentation are.  The step loop below is modelled from the spec: a
sequential loop over tagged step outcomes that merges payload patches,
appends the executed step to `completed_steps`, and enforces the iteration
bound — "if a given step name appears in `completed_steps` more than
`max_iterations` times ... the engine fails the workflow with
`IterationLimitExceeded` rather than looping forever".  Checkpoint
persistence and progress recomputation are orthogonal to the bound and are
not modelled. -/

/-- Outcome of one step-executor invocation. -/
inductive StepOutcome where
  | stepResult (nextStep : Option String) (payloadPatch : List (String × Json))
  | needsReview (checkpointType : String) (checkpointData : Json)
      (agentRecommendations : List String)
  | stepFailure (reason : String)

/-- Workflow status. -/
inductive WorkflowStatus where
  | running
  | pausedForReview
  | completed
  | failed (reason : String)
  deriving DecidableEq

/-- The engine-owned workflow state. -/
structure WorkflowThread where
  currentStep : String
  completedSteps : List String
  status : WorkflowStatus
  payload : List (String × Json)
  maxIterations : Nat

/-- Merge a payload patch into the payload (later bindings shadow earlier
ones under `lookupLast`). -/
def mergePayload (payload patch : List (String × Json)) : List (String × Json) :=
  payload ++ patch

/-- Number of occurrences of a step name in the completed-steps list. -/
def countStep (step : String) (completed : List String) : Nat :=
  (completed.filter (fun s => s = step)).length

/-- The engine's step loop, fuel-bounded.  Each iteration of a running
workflow invokes the executor of the current step; a `stepResult` appends
the step to `completedSteps`, merges the patch, fails with
`IterationLimitExceeded` when the step now appears more than
`maxIterations` times, and otherwise completes or advances; `needsReview`
pauses; `stepFailure` fails. -/
def stepLoop (exec : String → List (String × Json) → StepOutcome) :
    Nat → WorkflowThread → WorkflowThread
  | 0, st => st
  | fuel + 1, st =>
    match st.status with
    | WorkflowStatus.running =>
      match exec st.currentStep st.payload with
      | StepOutcome.stepResult next patch =>
        let completed := st.completedSteps ++ [st.currentStep]
        let payload := mergePayload st.payload patch
        if st.maxIterations < countStep st.currentStep completed then
          WorkflowThread.mk st.currentStep completed
            (WorkflowStatus.failed "IterationLimitExceeded") payload st.maxIterations
        else
          match next with
          | none =>
            WorkflowThread.mk st.currentStep completed WorkflowStatus.completed payload
              st.maxIterations
          | some n =>
            stepLoop exec fuel
              (WorkflowThread.mk n completed WorkflowStatus.running payload st.maxIterations)
      | StepOutcome.needsReview _ _ _ =>
        WorkflowThread.mk st.currentStep st.completedSteps WorkflowStatus.pausedForReview
          st.payload st.maxIterations
      | StepOutcome.stepFailure r =>
        WorkflowThread.mk st.currentStep st.completedSteps (WorkflowStatus.failed r)
          st.payload st.maxIterations
    | _ => st

/-! ### Concrete values used in witnesses and counterexamples -/

/-- The `data` object used in the C1 witness. -/
def c1WitnessData : Json := Json.obj [("test", Json.str "data")]

/-- A truncated JSON document. -/
def c1TruncatedInput : String := "\x7b\"type\":\"x\",\"data\""

/-- A non-JSON document (the test suite's example). -/
def c1NonJsonInput : String := "\x7b invalid json \x7d"

/-- C2 counterexample input: a valid JSON document whose `type` field is
present and a string (the empty string) and whose `data` field is present
and a mapping. -/
def c2CexInput : String := "\x7b\"type\":\"\",\"data\":\x7b\x7d\x7d"

/-- C2 amended witness input: unknown `type` string, no optional fields. -/
def c2WitnessInput : String := "\x7b\"type\":\"totally_unknown\",\"data\":\x7b\x7d\x7d"

/-- The always-revise executor used in the C4 witness. -/
def c4Exec : String → List (String × Json) → StepOutcome :=
  fun _ _ => StepOutcome.stepResult (some "mesh") []

/-- The concrete message used in the C5 witness. -/
def c5Msg : Json := Json.obj [("type", Json.str "heartbeat"), ("data", Json.obj [])]

/-- First C6 counterexample message (`Date.now() = 0`, random suffix
`"abc"`). -/
def c6MsgA : Json :=
  createStandardMessage MessageType.heartbeat (Json.obj [("a", Json.num 1)]) none 0 "abc" "T1"

/-- Second C6 counterexample message: a distinct call (different `data`)
under the same platform readings. -/
def c6MsgB : Json :=
  createStandardMessage MessageType.heartbeat (Json.obj [("b", Json.num 2)]) none 0 "abc" "T1"

/-- A structurally invalid message (no `type` field) for the C9 witness. -/
def c9BadMsg : Json := Json.obj [("data", Json.obj [])]

/-- A concrete error message for the C10 witness. -/
def c10ErrMsg : Json := Json.obj [("type", Json.str "error"),
  ("data", Json.obj [("error", Json.str "Handler execution failed"),
    ("details", Json.str "boom")])]

/-- A concrete non-error message for the C10 witness. -/
def c10NonErrMsg : Json := Json.obj [("type", Json.str "heartbeat"), ("data", Json.obj [])]

/-- The input is empty or does not begin with a decimal digit (so a number
parse that stops here consumes nothing further). -/
def headNotDigit : List Char → Prop
  | [] => True
  | c :: _ => c.isDigit = false

/-! ### Round trip of the JSON printer and parser -/

theorem toNat_digitChar (d : Nat) (h : d < 10) : (digitChar d).toNat = 48 + d := by
  interval_cases d <;> decide

theorem isDigit_digitChar (d : Nat) (h : d < 10) : (digitChar d).isDigit = true := by
  interval_cases d <;> decide

theorem isDigit_ne (c d : Char) (hc : c.isDigit = true) (hd : d.isDigit = false) : c ≠ d := by
  intro he
  rw [he, hd] at hc
  cases hc

theorem natChars_ne_nil (m : Nat) : natChars m ≠ [] := by
  unfold natChars
  split
  · simp
  · next h =>
    intro hc
    have hd : Nat.digits 10 m ≠ [] := Nat.digits_ne_nil_iff_ne_zero.mpr h
    simp only [List.map_eq_nil_iff, List.reverse_eq_nil_iff] at hc
    exact hd hc

theorem mem_natChars_isDigit (m : Nat) : ∀ c ∈ natChars m, c.isDigit = true := by
  intro c hc
  unfold natChars at hc
  split at hc
  · simp at hc
    subst hc
    decide
  · simp only [List.mem_map, List.mem_reverse] at hc
    obtain ⟨d, hd, rfl⟩ := hc
    exact isDigit_digitChar d (Nat.digits_lt_base (by norm_num) hd)

theorem foldl_map_digitChar (ds : List Nat) (h : ∀ d ∈ ds, d < 10) (a : Nat) :
    List.foldl (fun x c => x * 10 + (c.toNat - 48)) a (ds.map digitChar) =
    List.foldl (fun x d => x * 10 + d) a ds := by
  induction ds generalizing a with
  | nil => rfl
  | cons d ds ih =>
    have hd : d < 10 := h d (by simp)
    simp only [List.map_cons, List.foldl_cons]
    rw [toNat_digitChar d hd, show 48 + d - 48 = d from by omega]
    exact ih (fun x hx => h x (by simp [hx])) _

theorem foldl_reverse_ofDigits (ds : List Nat) (a : Nat) :
    List.foldl (fun x d => x * 10 + d) a ds.reverse =
    a * 10 ^ ds.length + Nat.ofDigits 10 ds := by
  induction ds generalizing a with
  | nil => simp
  | cons d ds ih =>
    simp only [List.reverse_cons, List.foldl_append, List.foldl_cons, List.foldl_nil, ih,
      List.length_cons, Nat.ofDigits_cons, pow_succ]
    ring

theorem digitsVal_natChars (m : Nat) : digitsVal (natChars m) = m := by
  unfold digitsVal natChars
  split
  · next h => subst h; decide
  · rw [foldl_map_digitChar _ (fun d hd => Nat.digits_lt_base (by norm_num) (List.mem_reverse.mp hd)) 0,
      foldl_reverse_ofDigits]
    simp [Nat.ofDigits_digits]

theorem takeWhile_isDigit_append (l rest : List Char)
    (hl : ∀ c ∈ l, c.isDigit = true) (hr : headNotDigit rest) :
    (l ++ rest).takeWhile Char.isDigit = l ∧ (l ++ rest).dropWhile Char.isDigit = rest := by
  induction l with
  | nil =>
    cases rest with
    | nil => exact ⟨rfl, rfl⟩
    | cons c cs =>
      have hc : c.isDigit = false := hr
      simp [List.takeWhile_cons, List.dropWhile_cons, hc]
  | cons c cs ih =>
    have hc : c.isDigit = true := hl c (by simp)
    have := ih (fun x hx => hl x (by simp [hx]))
    simp [List.takeWhile_cons, List.dropWhile_cons, hc, this.1, this.2]

theorem parseNumber_natChars (m : Nat) (rest : List Char) (hr : headNotDigit rest) :
    parseNumber (natChars m ++ rest) = some (Json.num (m : Int), rest) := by
  obtain ⟨c, cs, hcs⟩ : ∃ c cs, natChars m = c :: cs := by
    cases h : natChars m with
    | nil => exact absurd h (natChars_ne_nil m)
    | cons c cs => exact ⟨c, cs, rfl⟩
  have hdig := mem_natChars_isDigit m
  have hc : c.isDigit = true := hdig c (by rw [hcs]; simp)
  have hne : c ≠ '-' := isDigit_ne c '-' hc (by decide)
  have htake := takeWhile_isDigit_append (natChars m) rest hdig hr
  have hval := digitsVal_natChars m
  rw [hcs] at htake hval
  rw [hcs, List.cons_append]
  have hcons : (c :: cs) ++ rest = c :: (cs ++ rest) := rfl
  rw [hcons] at htake
  simp only [parseNumber, if_neg hne, htake.1, htake.2, hval]
  rw [if_neg (by simp)]

theorem parseNumber_intChars (n : Int) (rest : List Char) (hr : headNotDigit rest) :
    parseNumber (intChars n ++ rest) = some (Json.num n, rest) := by
  unfold intChars
  split
  · next hneg =>
    rw [List.cons_append]
    have hdig := mem_natChars_isDigit n.natAbs
    have htake := takeWhile_isDigit_append (natChars n.natAbs) rest hdig hr
    simp only [parseNumber, if_pos rfl, htake.1, htake.2, digitsVal_natChars]
    rw [if_neg (natChars_ne_nil n.natAbs)]
    have habs : ((n.natAbs : Nat) : Int) = -n := Int.ofNat_natAbs_of_nonpos (le_of_lt hneg)
    rw [habs, neg_neg]
    simp
  · next hpos =>
    rw [parseNumber_natChars _ rest hr, Int.toNat_of_nonneg (by omega)]

theorem hexVal_hexChar (d : Nat) (h : d < 16) : hexVal (hexChar d) = some d := by
  interval_cases d <;> decide

theorem parseStringBody_escape (cs rest : List Char) :
    parseStringBody (escapeList cs ++ '"' :: rest) = some (cs, rest) := by
  induction cs with
  | nil =>
    simp only [escapeList, List.nil_append]
    unfold parseStringBody
    simp
  | cons c cs ih =>
    show parseStringBody ((escapeChar c ++ escapeList cs) ++ '"' :: rest) = _
    rw [List.append_assoc]
    by_cases h1 : c = '"'
    · subst h1
      simp only [escapeChar, reduceIte, List.cons_append, List.nil_append]
      unfold parseStringBody
      simp [unescapeSimple, ih]
    · by_cases h2 : c = '\\'
      · subst h2
        simp only [escapeChar, reduceIte, List.cons_append, List.nil_append]
        unfold parseStringBody
        simp [unescapeSimple, ih]
      · by_cases h3 : c.toNat < 32
        · have hv1 : hexVal (hexChar (c.toNat / 16)) = some (c.toNat / 16) :=
            hexVal_hexChar _ (by omega)
          have hv2 : hexVal (hexChar (c.toNat % 16)) = some (c.toNat % 16) :=
            hexVal_hexChar _ (by omega)
          simp only [escapeChar, if_neg h1, if_neg h2, if_pos h3, List.cons_append,
            List.nil_append]
          unfold parseStringBody
          rw [if_neg (show ('\\' : Char) ≠ '"' from by decide)]
          simp only [reduceIte, hv1, hv2, show hexVal '0' = some 0 from rfl, ih]
          rw [show ((0 * 16 + 0) * 16 + c.toNat / 16) * 16 + c.toNat % 16 = c.toNat from by
            omega]
          simp [Char.ofNat_toNat]
        · simp only [escapeChar, if_neg h1, if_neg h2, if_neg h3, List.cons_append,
            List.nil_append]
          unfold parseStringBody
          rw [if_neg h1, if_neg h2]
          simp [ih]

theorem intChars_head (n : Int) :
    ∃ c cs, intChars n = c :: cs ∧ (c = '-' ∨ c.isDigit = true) := by
  unfold intChars
  split
  · exact ⟨'-', natChars n.natAbs, rfl, Or.inl rfl⟩
  · obtain ⟨c, cs, hcs⟩ : ∃ c cs, natChars n.toNat = c :: cs := by
      cases h : natChars n.toNat with
      | nil => exact absurd h (natChars_ne_nil _)
      | cons c cs => exact ⟨c, cs, rfl⟩
    exact ⟨c, cs, hcs, Or.inr (mem_natChars_isDigit _ c (by rw [hcs]; simp))⟩

theorem printV_cons (v : Json) : ∃ c cs, printV v = c :: cs ∧ c ≠ ']' := by
  cases v with
  | null => exact ⟨'n', ['u', 'l', 'l'], by simp [printV], by decide⟩
  | bool b =>
    cases b with
    | true => exact ⟨'t', ['r', 'u', 'e'], by simp [printV], by decide⟩
    | false => exact ⟨'f', ['a', 'l', 's', 'e'], by simp [printV], by decide⟩
  | num n =>
    obtain ⟨c, cs, hc, hd⟩ := intChars_head n
    refine ⟨c, cs, by simp [printV, hc], ?_⟩
    rcases hd with h | h
    · subst h; decide
    · exact isDigit_ne _ _ h (by decide)
  | str s =>
    exact ⟨'"', escapeList s.data ++ ['"'], by simp [printV, stringChars], by decide⟩
  | arr xs => exact ⟨'[', printElems xs ++ [']'], by simp [printV], by decide⟩
  | obj kvs => exact ⟨'\x7b', printFields kvs ++ ['\x7d'], by simp [printV], by decide⟩

theorem printV_length_pos (v : Json) : 1 ≤ (printV v).length := by
  obtain ⟨c, cs, hc, _⟩ := printV_cons v
  simp [hc]

theorem printElems_cons_length_pos (x : Json) (xs : List Json) :
    1 ≤ (printElems (x :: xs)).length := by
  cases xs with
  | nil => simpa [printElems] using printV_length_pos x
  | cons y ys =>
    have := printV_length_pos x
    simp [printElems]
    omega

theorem printFields_cons_length (kv : String × Json) (fs : List (String × Json)) :
    4 ≤ (printFields (kv :: fs)).length := by
  have hv := printV_length_pos kv.2
  cases fs with
  | nil =>
    simp [printFields, stringChars]
    omega
  | cons f fs =>
    simp [printFields, stringChars]
    omega

theorem mk_data (s : String) : String.mk s.data = s := rfl

theorem parseValue_cons (fuel : Nat) (c : Char) (rest : List Char) :
    parseValue (fuel + 1) (c :: rest) =
      if c = '"' then (parseStringBody rest).map (fun p => (Json.str (String.mk p.1), p.2))
      else if c = '[' then (parseElems fuel rest).map (fun p => (Json.arr p.1, p.2))
      else if c = '\x7b' then (parseFields fuel rest).map (fun p => (Json.obj p.1, p.2))
      else if c = 'n' then
        match rest with
        | 'u' :: 'l' :: 'l' :: r => some (Json.null, r)
        | _ => none
      else if c = 't' then
        match rest with
        | 'r' :: 'u' :: 'e' :: r => some (Json.bool true, r)
        | _ => none
      else if c = 'f' then
        match rest with
        | 'a' :: 'l' :: 's' :: 'e' :: r => some (Json.bool false, r)
        | _ => none
      else parseNumber (c :: rest) := rfl

theorem parseElems_cons (fuel : Nat) (c : Char) (rest : List Char) :
    parseElems (fuel + 1) (c :: rest) =
      if c = ']' then some ([], rest)
      else
        match parseValue fuel (c :: rest) with
        | none => none
        | some (v, r) =>
          match r with
          | ',' :: r2 =>
            match parseElems fuel r2 with
            | none => none
            | some (vs, r3) => some (v :: vs, r3)
          | ']' :: r2 => some ([v], r2)
          | _ => none := rfl

theorem parseFields_cons (fuel : Nat) (c : Char) (rest : List Char) :
    parseFields (fuel + 1) (c :: rest) =
      if c = '\x7d' then some ([], rest)
      else if c ≠ '"' then none
      else
        match parseStringBody rest with
        | none => none
        | some (kcs, r1) =>
          match r1 with
          | ':' :: r2 =>
            match parseValue fuel r2 with
            | none => none
            | some (v, r3) =>
              match r3 with
              | ',' :: r4 =>
                match parseFields fuel r4 with
                | none => none
                | some (fs, r5) => some ((String.mk kcs, v) :: fs, r5)
              | '\x7d' :: r4 => some ([(String.mk kcs, v)], r4)
              | _ => none
          | _ => none := rfl

theorem parse_print_fuel (fuel : Nat) :
    (∀ v rest, (printV v).length < fuel → headNotDigit rest →
      parseValue fuel (printV v ++ rest) = some (v, rest)) ∧
    (∀ xs rest, (printElems xs).length + 2 ≤ fuel →
      parseElems fuel (printElems xs ++ ']' :: rest) = some (xs, rest)) ∧
    (∀ kvs rest, (printFields kvs).length + 2 ≤ fuel →
      parseFields fuel (printFields kvs ++ '\x7d' :: rest) = some (kvs, rest)) := by
  induction fuel with
  | zero =>
    exact ⟨fun v rest h _ => absurd h (by omega),
      fun xs rest h => absurd h (by omega),
      fun kvs rest h => absurd h (by omega)⟩
  | succ fuel ih =>
    obtain ⟨ihV, ihE, ihF⟩ := ih
    refine ⟨?_, ?_, ?_⟩
    · intro v rest hlen hrest
      cases v with
      | null =>
        simp only [printV, List.cons_append, List.nil_append]
        rw [parseValue_cons]
        simp
      | bool b =>
        cases b with
        | true =>
          simp only [printV, List.cons_append, List.nil_append]
          rw [parseValue_cons]
          simp
        | false =>
          simp only [printV, List.cons_append, List.nil_append]
          rw [parseValue_cons]
          simp
      | num n =>
        obtain ⟨c, cs, hc, hd⟩ := intChars_head n
        have hne : ∀ d : Char, d ≠ '-' → d.isDigit = false → c ≠ d := by
          intro d hd1 hd2
          rcases hd with h | h
          · subst h; exact fun he => hd1 he.symm
          · exact isDigit_ne _ _ h hd2
        rw [show printV (Json.num n) = intChars n from by simp [printV], hc, List.cons_append]
        rw [parseValue_cons]
        rw [if_neg (hne '"' (by decide) (by decide)), if_neg (hne '[' (by decide) (by decide)),
          if_neg (hne '\x7b' (by decide) (by decide)), if_neg (hne 'n' (by decide) (by decide)),
          if_neg (hne 't' (by decide) (by decide)), if_neg (hne 'f' (by decide) (by decide))]
        rw [show c :: (cs ++ rest) = (c :: cs) ++ rest from rfl, ← hc]
        exact parseNumber_intChars n rest hrest
      | str s =>
        rw [show printV (Json.str s) = '"' :: (escapeList s.data ++ ['"']) from by
          simp [printV, stringChars]]
        rw [List.cons_append, List.append_assoc,
          show ['"'] ++ rest = '"' :: rest from rfl]
        rw [parseValue_cons]
        rw [if_pos rfl, parseStringBody_escape]
        simp [mk_data]
      | arr xs =>
        have hlen2 : (printElems xs).length + 2 ≤ fuel := by
          have hl : (printV (Json.arr xs)).length = (printElems xs).length + 2 := by
            simp [printV]
          omega
        rw [show printV (Json.arr xs) = '[' :: (printElems xs ++ [']']) from by simp [printV]]
        rw [List.cons_append, List.append_assoc,
          show [']'] ++ rest = ']' :: rest from rfl]
        rw [parseValue_cons]
        rw [if_neg (by decide), if_pos rfl, ihE xs rest hlen2]
        rfl
      | obj kvs =>
        have hlen2 : (printFields kvs).length + 2 ≤ fuel := by
          have hl : (printV (Json.obj kvs)).length = (printFields kvs).length + 2 := by
            simp [printV]
          omega
        rw [show printV (Json.obj kvs) = '\x7b' :: (printFields kvs ++ ['\x7d']) from by
          simp [printV]]
        rw [List.cons_append, List.append_assoc,
          show ['\x7d'] ++ rest = '\x7d' :: rest from rfl]
        rw [parseValue_cons]
        rw [if_neg (by decide), if_neg (by decide), if_pos rfl, ihF kvs rest hlen2]
        rfl
    · intro xs rest hlen
      cases xs with
      | nil =>
        simp only [printElems, List.nil_append]
        rw [parseElems_cons]
        simp
      | cons x xs =>
        obtain ⟨c, cs, hc, hcne⟩ := printV_cons x
        cases xs with
        | nil =>
          have hlx : (printV x).length < fuel := by
            have hpe : printElems [x] = printV x := by simp [printElems]
            rw [hpe] at hlen
            omega
          have hv := ihV x (']' :: rest) hlx (show (']').isDigit = false from by decide)
          rw [show printElems [x] = printV x from by simp [printElems], hc, List.cons_append]
          rw [parseElems_cons]
          rw [if_neg hcne]
          rw [show c :: (cs ++ ']' :: rest) = (c :: cs) ++ ']' :: rest from rfl, ← hc, hv]
          rfl
        | cons y ys =>
          have hpe : printElems (x :: y :: ys) = printV x ++ ',' :: printElems (y :: ys) := by
            simp [printElems]
          have hlx : (printV x).length < fuel := by
            have h1 := printElems_cons_length_pos y ys
            rw [hpe] at hlen
            simp at hlen
            omega
          have hlE : (printElems (y :: ys)).length + 2 ≤ fuel := by
            have h1 := printV_length_pos x
            rw [hpe] at hlen
            simp at hlen
            omega
          have hv := ihV x (',' :: (printElems (y :: ys) ++ ']' :: rest)) hlx
            (show (',').isDigit = false from by decide)
          have he := ihE (y :: ys) rest hlE
          rw [hpe, hc]
          simp only [List.cons_append, List.append_assoc]
          rw [parseElems_cons]
          rw [if_neg hcne]
          rw [show c :: (cs ++ (',' :: (printElems (y :: ys) ++ ']' :: rest))) =
            (c :: cs) ++ (',' :: (printElems (y :: ys) ++ ']' :: rest)) from rfl, ← hc, hv]
          simp [he]
    · intro kvs rest hlen
      cases kvs with
      | nil =>
        simp only [printFields, List.nil_append]
        rw [parseFields_cons]
        simp
      | cons kv fs =>
        obtain ⟨k, v⟩ := kv
        cases fs with
        | nil =>
          have hpf : printFields [(k, v)] = stringChars k.data ++ ':' :: printV v := by
            simp [printFields]
          have hlv : (printV v).length < fuel := by
            rw [hpf] at hlen
            simp [stringChars] at hlen
            omega
          have hv := ihV v ('\x7d' :: rest) hlv (show ('\x7d').isDigit = false from by decide)
          rw [hpf, show stringChars k.data = '"' :: (escapeList k.data ++ ['"']) from rfl]
          simp only [List.cons_append, List.append_assoc, List.singleton_append]
          rw [parseFields_cons]
          rw [if_neg (by decide), if_neg (show ¬ (('"' : Char) ≠ '"') from by decide)]
          rw [parseStringBody_escape]
          simp [hv, mk_data]
        | cons f fs2 =>
          have hpf : printFields ((k, v) :: f :: fs2) =
              stringChars k.data ++ ':' :: printV v ++ ',' :: printFields (f :: fs2) := by
            simp [printFields]
          have hlv : (printV v).length < fuel := by
            have h1 := printFields_cons_length f fs2
            rw [hpf] at hlen
            simp [stringChars] at hlen
            omega
          have hlF : (printFields (f :: fs2)).length + 2 ≤ fuel := by
            have h1 := printV_length_pos v
            rw [hpf] at hlen
            simp [stringChars] at hlen
            omega
          have hv := ihV v (',' :: (printFields (f :: fs2) ++ '\x7d' :: rest)) hlv
            (show (',').isDigit = false from by decide)
          have hf := ihF (f :: fs2) rest hlF
          rw [hpf, show stringChars k.data = '"' :: (escapeList k.data ++ ['"']) from rfl]
          simp only [List.cons_append, List.append_assoc, List.singleton_append]
          rw [parseFields_cons]
          rw [if_neg (by decide), if_neg (show ¬ (('"' : Char) ≠ '"') from by decide)]
          rw [parseStringBody_escape]
          simp [hv, hf, mk_data]

/-- The printer/parser round trip: parsing a printed JSON value returns
exactly that value. -/
theorem parseJson_printJson (v : Json) : parseJson (printJson v) = some v := by
  unfold parseJson printJson
  have hdata : (String.mk (printV v)).data = printV v := rfl
  rw [hdata]
  have h := (parse_print_fuel ((printV v).length + 1)).1 v [] (by omega) trivial
  rw [List.append_nil] at h
  rw [h]

theorem countStep_append_self (step : String) (l : List String) :
    countStep step (l ++ [step]) = countStep step l + 1 := by
  simp [countStep, List.filter_append]

/-- A revision-requesting executor (always `stepResult` back into the same
step) drives a running workflow with occurrence count at most
`maxIterations` into the `IterationLimitExceeded` failure, given enough
fuel; the failing state records `maxIterations + 1` occurrences. -/
theorem stepLoop_cycle_aux (step : String)
    (exec : String → List (String × Json) → StepOutcome)
    (patchf : List (String × Json) → List (String × Json))
    (hexec : ∀ p, exec step p = StepOutcome.stepResult (some step) (patchf p)) :
    ∀ (fuel : Nat) (st : WorkflowThread), st.currentStep = step →
      st.status = WorkflowStatus.running →
      countStep step st.completedSteps ≤ st.maxIterations →
      st.maxIterations + 1 ≤ countStep step st.completedSteps + fuel →
      (stepLoop exec fuel st).status = WorkflowStatus.failed "IterationLimitExceeded" ∧
      countStep step (stepLoop exec fuel st).completedSteps = st.maxIterations + 1 ∧
      (stepLoop exec fuel st).maxIterations = st.maxIterations := by
  intro fuel
  induction fuel with
  | zero => intro st h1 h2 h3 h4; omega
  | succ fuel ih =>
    intro st h1 h2 h3 h4
    unfold stepLoop
    simp only [h2, h1, hexec]
    by_cases hlast : st.maxIterations < countStep step (st.completedSteps ++ [step])
    · rw [if_pos hlast]
      rw [countStep_append_self] at hlast
      refine ⟨rfl, ?_, rfl⟩
      simp only [countStep_append_self]
      omega
    · rw [if_neg hlast]
      rw [countStep_append_self] at hlast
      have hrec := ih (WorkflowThread.mk step (st.completedSteps ++ [step])
        WorkflowStatus.running (mergePayload st.payload (patchf st.payload))
        st.maxIterations) rfl rfl
        (by simp only [countStep_append_self]; omega)
        (by simp only [countStep_append_self]; omega)
      simpa using hrec

/-! ### Facts about the constructed messages -/

theorem messageTypeStr_ne_empty (t : MessageType) : messageTypeStr t ≠ "" := by
  cases t <;> decide

theorem truthy_of_object (d : Json) (hobj : jsTypeof d = "object")
    (hnn : isNull d = false) : truthy d = true := by
  cases d <;> simp_all [jsTypeof, isNull, truthy]

theorem getField_csm_type (type : MessageType) (data : Json) (mid : Option String)
    (now : Nat) (rand iso : String) :
    getField (createStandardMessage type data mid now rand iso) "type" =
      some (Json.str (messageTypeStr type)) := by
  simp [createStandardMessage, getField, lookupLast]

theorem getField_csm_data (type : MessageType) (data : Json) (mid : Option String)
    (now : Nat) (rand iso : String) :
    getField (createStandardMessage type data mid now rand iso) "data" = some data := by
  simp [createStandardMessage, getField, lookupLast]

theorem getField_csm_timestamp (type : MessageType) (data : Json) (mid : Option String)
    (now : Nat) (rand iso : String) :
    getField (createStandardMessage type data mid now rand iso) "timestamp" =
      some (Json.str iso) := by
  simp [createStandardMessage, getField, lookupLast]

theorem getField_csm_message_id (type : MessageType) (data : Json) (mid : Option String)
    (now : Nat) (rand iso : String) :
    getField (createStandardMessage type data mid now rand iso) "message_id" =
      some (Json.str (genMessageId mid now rand)) := by
  simp [createStandardMessage, getField, lookupLast]

theorem validateMessage_csm (type : MessageType) (data : Json) (mid : Option String)
    (now : Nat) (rand iso : String) (hobj : jsTypeof data = "object")
    (hnn : isNull data = false) :
    validateMessage (createStandardMessage type data mid now rand iso) = true := by
  unfold validateMessage
  rw [getField_csm_type, getField_csm_data]
  have ht := messageTypeStr_ne_empty type
  have htr := truthy_of_object data hobj hnn
  simp only [truthyOpt, jsTypeofOpt, createStandardMessage]
  simp only [htr, hobj]
  simp [jsTypeof, isNull, truthy, ht]

/-! ### The claims -/

/-- C1: for every message type and every JSON-serializable data object,
decoding (`parseWebSocketMessage`) the JSON serialization of the message
produced by `createStandardMessage` yields that message, whose `data` field
equals `data` and whose `type` field equals the type's string; and
`parseWebSocketMessage` returns `null` on every string rejected by
`JSON.parse` (truncated or non-JSON input) — the thrown parse error is
caught inside the function, which is total (never propagates an
exception). -/
theorem c1_wire_roundtrip :
    (∀ (type : MessageType) (data : Json) (mid : Option String) (now : Nat)
        (rand iso : String), jsTypeof data = "object" → isNull data = false →
      parseWebSocketMessage (printJson (createStandardMessage type data mid now rand iso)) =
          some (createStandardMessage type data mid now rand iso) ∧
        getField (createStandardMessage type data mid now rand iso) "data" = some data ∧
        getField (createStandardMessage type data mid now rand iso) "type" =
          some (Json.str (messageTypeStr type))) ∧
    (∀ s : String, parseJson s = none → parseWebSocketMessage s = none) := by
  constructor
  · intro type data mid now rand iso hobj hnn
    refine ⟨?_, getField_csm_data type data mid now rand iso,
      getField_csm_type type data mid now rand iso⟩
    unfold parseWebSocketMessage
    rw [parseJson_printJson]
    simp [validateMessage_csm type data mid now rand iso hobj hnn]
  · intro s h
    unfold parseWebSocketMessage
    rw [h]

/-- Witness for C1: the round trip at a concrete heartbeat message, and the
parse failures at a concrete truncated and a concrete non-JSON input. -/
theorem c1_wire_roundtrip_witness :
    (jsTypeof c1WitnessData = "object" ∧ isNull c1WitnessData = false ∧
      parseWebSocketMessage (printJson (createStandardMessage MessageType.heartbeat
          c1WitnessData none 5 "abc" "2025-01-01T00:00:00.000Z")) =
        some (createStandardMessage MessageType.heartbeat c1WitnessData none 5 "abc"
          "2025-01-01T00:00:00.000Z")) ∧
    (parseJson c1TruncatedInput = none ∧ parseWebSocketMessage c1TruncatedInput = none) ∧
    (parseJson c1NonJsonInput = none ∧ parseWebSocketMessage c1NonJsonInput = none) := by
  refine ⟨⟨rfl, rfl, ?_⟩, ⟨rfl, ?_⟩, ⟨rfl, ?_⟩⟩
  · exact (c1_wire_roundtrip.1 MessageType.heartbeat c1WitnessData none 5 "abc"
      "2025-01-01T00:00:00.000Z" rfl rfl).1
  · exact c1_wire_roundtrip.2 c1TruncatedInput rfl
  · exact c1_wire_roundtrip.2 c1NonJsonInput rfl

theorem selfCheck_iff (v : Json) :
    ((jsTypeof v != "object") || isNull v) = false ↔
      jsTypeof v = "object" ∧ isNull v = false := by
  cases v <;> simp [jsTypeof, isNull]

theorem typeCheck_iff (o : Option Json) :
    (!truthyOpt o || (jsTypeofOpt o != "string")) = false ↔
      ∃ t, o = some (Json.str t) ∧ t ≠ "" := by
  cases o with
  | none => simp [truthyOpt, jsTypeofOpt]
  | some w => cases w <;> simp [truthyOpt, jsTypeofOpt, truthy, jsTypeof]

theorem dataCheck_iff (o : Option Json) :
    (!truthyOpt o || (jsTypeofOpt o != "object")) = false ↔
      ∃ d, o = some d ∧ jsTypeof d = "object" ∧ isNull d = false := by
  cases o with
  | none => simp [truthyOpt, jsTypeofOpt]
  | some w => cases w <;> simp [truthyOpt, jsTypeofOpt, truthy, jsTypeof, isNull]

/-- Exact acceptance criterion of `validateMessage`. -/
theorem validateMessage_eq_true_iff (v : Json) :
    validateMessage v = true ↔
      jsTypeof v = "object" ∧ isNull v = false ∧
      (∃ t, getField v "type" = some (Json.str t) ∧ t ≠ "") ∧
      (∃ d, getField v "data" = some d ∧ jsTypeof d = "object" ∧ isNull d = false) := by
  unfold validateMessage
  cases hb1 : ((jsTypeof v != "object") || isNull v) with
  | true =>
    rw [if_pos rfl]
    constructor
    · intro h; cases h
    · rintro ⟨h1, h2, _⟩
      rw [(selfCheck_iff v).mpr ⟨h1, h2⟩] at hb1
      cases hb1
  | false =>
    rw [if_neg (by simp)]
    obtain ⟨hv1, hv2⟩ := (selfCheck_iff v).mp hb1
    cases hb2 : (!truthyOpt (getField v "type") || (jsTypeofOpt (getField v "type") != "string")) with
    | true =>
      rw [if_pos rfl]
      constructor
      · intro h; cases h
      · rintro ⟨_, _, ht, _⟩
        rw [(typeCheck_iff _).mpr ht] at hb2
        cases hb2
    | false =>
      rw [if_neg (by simp)]
      cases hb3 : (!truthyOpt (getField v "data") || (jsTypeofOpt (getField v "data") != "object")) with
      | true =>
        rw [if_pos rfl]
        constructor
        · intro h; cases h
        · rintro ⟨_, _, _, hd⟩
          rw [(dataCheck_iff _).mpr hd] at hb3
          cases hb3
      | false =>
        rw [if_neg (by simp)]
        exact iff_of_true rfl ⟨hv1, hv2, (typeCheck_iff _).mp hb2, (dataCheck_iff _).mp hb3⟩

/-- C2 counterexample: `c2CexInput` is valid structured JSON whose `type`
field is present and a string and whose `data` field is present and a
mapping, yet `parseWebSocketMessage` returns `null` — the empty-string
`type` is falsy in JavaScript and rejected by `validateMessage`, refuting
the claim's "exactly when". -/
theorem c2_counterexample :
    parseJson c2CexInput =
        some (Json.obj [("type", Json.str ""), ("data", Json.obj [])]) ∧
    getField (Json.obj [("type", Json.str ""), ("data", Json.obj [])]) "type" =
        some (Json.str "") ∧
    getField (Json.obj [("type", Json.str ""), ("data", Json.obj [])]) "data" =
        some (Json.obj []) ∧
    jsTypeof (Json.obj ([] : List (String × Json))) = "object" ∧
    parseWebSocketMessage c2CexInput = none :=
  ⟨rfl, rfl, rfl, rfl, rfl⟩

/-- C2 amended: `parseWebSocketMessage` returns `null` exactly when the
input fails to parse as JSON, or the parsed value is not a non-`null`
object, or its `type` field is absent, not a string, or the empty string,
or its `data` field is absent, `null`, or not of JavaScript object type
(arrays, being of object type, are accepted); every other message is
accepted, including unknown `type` strings and messages missing the
optional `timestamp` and `message_id` fields. -/
theorem pwsm_some (s : String) (v : Json) (h : parseJson s = some v) :
    parseWebSocketMessage s = if validateMessage v then some v else none := by
  unfold parseWebSocketMessage
  rw [h]

theorem c2_amended_decode_criterion :
    (∀ s : String, parseJson s = none → parseWebSocketMessage s = none) ∧
    (∀ (s : String) (v : Json), parseJson s = some v →
      (parseWebSocketMessage s = some v ↔
        jsTypeof v = "object" ∧ isNull v = false ∧
        (∃ t, getField v "type" = some (Json.str t) ∧ t ≠ "") ∧
        (∃ d, getField v "data" = some d ∧ jsTypeof d = "object" ∧ isNull d = false)) ∧
      (parseWebSocketMessage s = some v ∨ parseWebSocketMessage s = none)) := by
  refine ⟨fun s h => by unfold parseWebSocketMessage; rw [h], ?_⟩
  intro s v h
  constructor
  · rw [← validateMessage_eq_true_iff]
    rw [pwsm_some s v h]
    constructor
    · intro hsome
      by_cases hv : validateMessage v = true
      · exact hv
      · rw [if_neg hv] at hsome; cases hsome
    · intro hv; rw [if_pos hv]
  · rw [pwsm_some s v h]
    by_cases hv : validateMessage v = true
    · left; rw [if_pos hv]
    · right; rw [if_neg hv]

/-- Witness for the amended C2: a concrete message with an unknown `type`
and without the optional fields is accepted. -/
theorem c2_amended_decode_criterion_witness :
    parseJson c2WitnessInput =
        some (Json.obj [("type", Json.str "totally_unknown"), ("data", Json.obj [])]) ∧
    parseWebSocketMessage c2WitnessInput =
        some (Json.obj [("type", Json.str "totally_unknown"), ("data", Json.obj [])]) := by
  refine ⟨rfl, ?_⟩
  exact ((c2_amended_decode_criterion.2 c2WitnessInput
      (Json.obj [("type", Json.str "totally_unknown"), ("data", Json.obj [])]) rfl).1).mpr
    ⟨rfl, rfl, ⟨"totally_unknown", rfl, by decide⟩, ⟨Json.obj [], rfl, rfl, rfl⟩⟩

/-- C3 counterexample: `useWorkflow` silently substitutes defaults for
missing identifiers — with `projectId` absent the built connection
parameters carry `project_id = "default"`, an omitted `userId` becomes
`"anonymous"`, and the resulting connection attempt is accepted rather than
refused, contradicting "the missing identifier is never silently replaced
by a default value". -/
theorem c3_counterexample :
    (useWorkflowConnectionParams none none).project_id = "default" ∧
    (useWorkflowConnectionParams none none).user_id = "anonymous" ∧
    validateConnectionParams (some (useWorkflowConnectionParams none none).user_id)
        (some (useWorkflowConnectionParams none none).project_id) none =
      ConnectDecision.accepted :=
  ⟨rfl, rfl, rfl⟩

/-- C3 amended (server side modelled from the spec): constructing the
Connection Channel with a missing or empty `user_id` or `project_id` fails
the connection attempt immediately, before any message exchange, with close
code 1008 and a distinct reason naming the missing parameter, and with both
identifiers present plus an optional `workflow_id` it succeeds; however the
`useWorkflow` hook does silently replace a missing `projectId` by
`"default"` and an omitted `userId` by `"anonymous"` before connecting. -/
theorem c3_amended_connection_validation :
    (∀ p w, validateConnectionParams none p w =
          ConnectDecision.refused 1008 "Invalid parameters: user_id parameter is required" ∧
        validateConnectionParams (some "") p w =
          ConnectDecision.refused 1008 "Invalid parameters: user_id parameter is required") ∧
    (∀ u w, u ≠ "" →
      validateConnectionParams (some u) none w =
          ConnectDecision.refused 1008 "Invalid parameters: project_id parameter is required" ∧
        validateConnectionParams (some u) (some "") w =
          ConnectDecision.refused 1008 "Invalid parameters: project_id parameter is required") ∧
    (∀ u p w, u ≠ "" → p ≠ "" →
      validateConnectionParams (some u) (some p) w = ConnectDecision.accepted) ∧
    ("Invalid parameters: user_id parameter is required" ≠
      "Invalid parameters: project_id parameter is required") ∧
    (∀ uid, (useWorkflowConnectionParams none uid).project_id = "default") ∧
    (∀ pid, (useWorkflowConnectionParams pid none).user_id = "anonymous") := by
  refine ⟨fun p w => ⟨rfl, rfl⟩, ?_, ?_, by decide, fun uid => rfl, fun pid => rfl⟩
  · intro u w hu
    constructor <;> simp [validateConnectionParams, hu]
  · intro u p w hu hp
    simp [validateConnectionParams, hu, hp]

/-- Witness for the amended C3 at concrete identifiers. -/
theorem c3_amended_connection_validation_witness :
    validateConnectionParams (some "user123") none none =
        ConnectDecision.refused 1008 "Invalid parameters: project_id parameter is required" ∧
    validateConnectionParams (some "user123") (some "proj456") (some "wf789") =
        ConnectDecision.accepted ∧
    validateConnectionParams none (some "proj456") none =
        ConnectDecision.refused 1008 "Invalid parameters: user_id parameter is required" :=
  ⟨(c3_amended_connection_validation.2.1 "user123" none (by decide)).1,
    c3_amended_connection_validation.2.2.1 "user123" "proj456" (some "wf789")
      (by decide) (by decide),
    (c3_amended_connection_validation.1 (some "proj456") none).1⟩

/-- C4 (engine modelled from the spec): a cyclic step graph whose executor
always requests revision of the same step makes the Workflow Engine
terminate with the `IterationLimitExceeded` failure rather than looping
forever — for every fuel of at least `maxIterations + 1`, the step loop
returns a failed thread whose completed list holds the step name
`maxIterations + 1` times, independent of how much extra fuel is
available. -/
theorem c4_iteration_limit (step : String)
    (exec : String → List (String × Json) → StepOutcome)
    (patchf : List (String × Json) → List (String × Json))
    (hexec : ∀ p, exec step p = StepOutcome.stepResult (some step) (patchf p))
    (m : Nat) (pay : List (String × Json)) (fuel : Nat) (hfuel : m + 1 ≤ fuel) :
    (stepLoop exec fuel (WorkflowThread.mk step [] WorkflowStatus.running pay m)).status =
        WorkflowStatus.failed "IterationLimitExceeded" ∧
    countStep step
        (stepLoop exec fuel
          (WorkflowThread.mk step [] WorkflowStatus.running pay m)).completedSteps =
      m + 1 := by
  have h := stepLoop_cycle_aux step exec patchf hexec fuel
    (WorkflowThread.mk step [] WorkflowStatus.running pay m) rfl rfl
    (by simp [countStep]) (by simp [countStep]; omega)
  exact ⟨h.1, by simpa using h.2.1⟩

/-- Witness for C4 with `max_iterations = 3`: the loop fails with
`IterationLimitExceeded` after the fourth re-entry. -/
theorem c4_iteration_limit_witness :
    3 + 1 ≤ 10 ∧
    (stepLoop c4Exec 10 (WorkflowThread.mk "mesh" [] WorkflowStatus.running [] 3)).status =
        WorkflowStatus.failed "IterationLimitExceeded" ∧
    countStep "mesh"
        (stepLoop c4Exec 10
          (WorkflowThread.mk "mesh" [] WorkflowStatus.running [] 3)).completedSteps =
      3 + 1 :=
  ⟨by omega,
    c4_iteration_limit "mesh" c4Exec (fun _ => []) (fun _ => rfl) 3 [] 10 (by omega)⟩

/-- C5: `sendMessage` and `sendRawMessage` return `false` and transmit
nothing whenever the socket reference is absent or not in the open state
(both are total functions — no exception escapes); on an open socket
`sendRawMessage` of a valid message transmits exactly its serialization and
returns `true`, and `sendMessage` transmits the freshly built standard
message and returns `true`. -/
theorem c5_send_only_when_open :
    (∀ (msg : Json) (type : MessageType) (data : Json) (now : Nat) (rand iso : String),
      sendRawMessage none msg = (false, []) ∧
      sendMessage none type data now rand iso = (false, []) ∧
      (∀ st : ReadyState, st ≠ ReadyState.opened →
        sendRawMessage (some (WSRef.mk st)) msg = (false, []) ∧
        sendMessage (some (WSRef.mk st)) type data now rand iso = (false, []))) ∧
    (∀ msg : Json, validateMessage msg = true →
      sendRawMessage (some (WSRef.mk ReadyState.opened)) msg = (true, [printJson msg])) ∧
    (∀ (type : MessageType) (data : Json) (now : Nat) (rand iso : String),
      sendMessage (some (WSRef.mk ReadyState.opened)) type data now rand iso =
        (true, [printJson (createStandardMessage type data none now rand iso)])) := by
  refine ⟨?_, ?_, fun type data now rand iso => rfl⟩
  · intro msg type data now rand iso
    refine ⟨rfl, rfl, ?_⟩
    intro st hst
    cases st with
    | opened => exact absurd rfl hst
    | connecting => exact ⟨rfl, rfl⟩
    | closing => exact ⟨rfl, rfl⟩
    | closed => exact ⟨rfl, rfl⟩
  · intro msg hv
    unfold sendRawMessage
    simp [hv]

/-- Witness for C5 at a closed socket, an absent socket, and an open
socket. -/
theorem c5_send_only_when_open_witness :
    sendRawMessage none c5Msg = (false, []) ∧
    (ReadyState.closed ≠ ReadyState.opened ∧
      sendRawMessage (some (WSRef.mk ReadyState.closed)) c5Msg = (false, [])) ∧
    (validateMessage c5Msg = true ∧
      sendRawMessage (some (WSRef.mk ReadyState.opened)) c5Msg =
        (true, [printJson c5Msg])) := by
  refine ⟨?_, ⟨by decide, ?_⟩, ⟨rfl, ?_⟩⟩
  · exact (c5_send_only_when_open.1 c5Msg MessageType.heartbeat (Json.obj []) 0 "r" "t").1
  · exact ((c5_send_only_when_open.1 c5Msg MessageType.heartbeat (Json.obj []) 0 "r"
      "t").2.2 ReadyState.closed (by decide)).1
  · exact c5_send_only_when_open.2.1 c5Msg rfl

theorem natChars_inj (n1 n2 : Nat) (h : natChars n1 = natChars n2) : n1 = n2 := by
  have h1 := digitsVal_natChars n1
  rw [h, digitsVal_natChars] at h1
  omega

theorem mkMsgId_data (n : Nat) (r : String) :
    (mkMsgId n r).data = 'm' :: 's' :: 'g' :: '_' :: (natChars n ++ '_' :: r.data) := by
  show ("msg_" ++ String.mk (natChars n) ++ "_" ++ r).data = _
  simp [String.data_append]

/-- The generated message id is injective in the platform readings: the
millisecond part is all digits and the first underscore after the prefix
separates it from the random suffix. -/
theorem mkMsgId_inj (n1 n2 : Nat) (r1 r2 : String) :
    mkMsgId n1 r1 = mkMsgId n2 r2 ↔ (n1 = n2 ∧ r1 = r2) := by
  constructor
  · intro h
    have hd := congrArg String.data h
    rw [mkMsgId_data, mkMsgId_data] at hd
    simp only [List.cons.injEq, true_and] at hd
    have ht := congrArg (List.takeWhile Char.isDigit) hd
    have hr := congrArg (List.dropWhile Char.isDigit) hd
    rw [(takeWhile_isDigit_append (natChars n1) ('_' :: r1.data) (mem_natChars_isDigit n1)
        (show ('_').isDigit = false from by decide)).1,
      (takeWhile_isDigit_append (natChars n2) ('_' :: r2.data) (mem_natChars_isDigit n2)
        (show ('_').isDigit = false from by decide)).1] at ht
    rw [(takeWhile_isDigit_append (natChars n1) ('_' :: r1.data) (mem_natChars_isDigit n1)
        (show ('_').isDigit = false from by decide)).2,
      (takeWhile_isDigit_append (natChars n2) ('_' :: r2.data) (mem_natChars_isDigit n2)
        (show ('_').isDigit = false from by decide)).2] at hr
    refine ⟨natChars_inj n1 n2 ht, ?_⟩
    have hrd : r1.data = r2.data := by injection hr
    have hmk := congrArg String.mk hrd
    rwa [mk_data, mk_data] at hmk
  · rintro ⟨rfl, rfl⟩
    rfl

/-- C6 counterexample: two distinct calls of `createStandardMessage`
(different `data` arguments) under equal platform readings — `Date.now()`
can return the same millisecond twice and `Math.random()` can repeat —
produce identical `message_id`s, refuting "any two distinct calls yield
distinct message_ids". -/
theorem c6_counterexample :
    getField c6MsgA "message_id" = getField c6MsgB "message_id" ∧
    getField c6MsgA "message_id" = some (Json.str "msg_0_abc") ∧
    getField c6MsgA "data" = some (Json.obj [("a", Json.num 1)]) ∧
    getField c6MsgB "data" = some (Json.obj [("b", Json.num 2)]) ∧
    Json.obj [("a", Json.num 1)] ≠ Json.obj [("b", Json.num 2)] := by
  refine ⟨rfl, rfl, rfl, rfl, ?_⟩
  intro h
  simp at h

/-- C6 amended: `createStandardMessage` stamps the provided current-time
reading as its `timestamp` and generates
`message_id = msg_<Date.now()>_<random suffix>`; message ids from two calls
are distinct exactly when their platform readings differ (the generator is
injective), but equal readings give equal ids, so uniqueness across calls is
not unconditional; as a function of its explicit inputs the embedding is
pure, and the output always satisfies `validateMessage` when `data` is a
non-null object. -/
theorem c6_amended_message_id :
    (∀ (n1 n2 : Nat) (r1 r2 : String),
      mkMsgId n1 r1 = mkMsgId n2 r2 ↔ (n1 = n2 ∧ r1 = r2)) ∧
    (∀ (type : MessageType) (data : Json) (now : Nat) (rand iso : String),
      jsTypeof data = "object" → isNull data = false →
      validateMessage (createStandardMessage type data none now rand iso) = true ∧
      getField (createStandardMessage type data none now rand iso) "timestamp" =
        some (Json.str iso) ∧
      getField (createStandardMessage type data none now rand iso) "message_id" =
        some (Json.str (mkMsgId now rand))) := by
  refine ⟨mkMsgId_inj, ?_⟩
  intro type data now rand iso hobj hnn
  exact ⟨validateMessage_csm type data none now rand iso hobj hnn,
    getField_csm_timestamp type data none now rand iso,
    getField_csm_message_id type data none now rand iso⟩

/-- Witness for the amended C6: differing random suffixes give differing
ids, and a concrete message is valid with the stamped fields. -/
theorem c6_amended_message_id_witness :
    mkMsgId 0 "abc" ≠ mkMsgId 0 "abd" ∧
    (jsTypeof (Json.obj ([] : List (String × Json))) = "object" ∧
      isNull (Json.obj ([] : List (String × Json))) = false ∧
      validateMessage (createStandardMessage MessageType.heartbeat
        (Json.obj ([] : List (String × Json))) none 0 "abc" "T") = true) := by
  refine ⟨?_, rfl, rfl, ?_⟩
  · intro h
    have hc := (c6_amended_message_id.1 0 0 "abc" "abd").mp h
    simp at hc
  · exact (c6_amended_message_id.2 MessageType.heartbeat
      (Json.obj ([] : List (String × Json))) 0 "abc" "T" rfl rfl).1

/-- C7: while the channel is open the sender emits a heartbeat on the fixed
interval — the default is 30000 ms (30 s) and the installed `setInterval`
timer fires at times `(k+1)·interval`; every emitted heartbeat message has
type `"heartbeat"` and a data mapping containing `client_time`; no frame is
emitted on a non-open socket; and (modelled from the spec: the
inbound-traffic timeout is server-side, the client installs no such timer)
the channel counts as dead and is closed once no inbound traffic arrived
within the 60000 ms (60 s) window. -/
theorem c7_heartbeat_liveness :
    defaultHeartbeatInterval = 30000 ∧
    (∀ k, heartbeatFireTime defaultHeartbeatInterval k = (k + 1) * 30000) ∧
    (∀ (clientIso : String) (now : Nat) (rand iso : String),
      getField (createHeartbeatMessage clientIso now rand iso) "type" =
          some (Json.str "heartbeat") ∧
        ∃ d, getField (createHeartbeatMessage clientIso now rand iso) "data" = some d ∧
          getField d "client_time" = some (Json.str clientIso)) ∧
    (∀ (st : ReadyState) (clientIso : String) (now : Nat) (rand iso : String),
      st ≠ ReadyState.opened →
      sendHeartbeat (some (WSRef.mk st)) clientIso now rand iso = []) ∧
    (∀ (clientIso : String) (now : Nat) (rand iso : String),
      sendHeartbeat (some (WSRef.mk ReadyState.opened)) clientIso now rand iso =
        [printJson (createHeartbeatMessage clientIso now rand iso)]) ∧
    heartbeatTimeoutMs = 60000 ∧
    (∀ lastInbound now, channelDead lastInbound now = true ↔ lastInbound + 60000 ≤ now) := by
  refine ⟨rfl, fun k => rfl, ?_, ?_, fun a b c d => rfl, rfl, ?_⟩
  · intro clientIso now rand iso
    exact ⟨getField_csm_type MessageType.heartbeat
        (Json.obj [("client_time", Json.str clientIso)]) none now rand iso,
      ⟨Json.obj [("client_time", Json.str clientIso)],
        getField_csm_data MessageType.heartbeat
          (Json.obj [("client_time", Json.str clientIso)]) none now rand iso, rfl⟩⟩
  · intro st a b c d hst
    cases st with
    | opened => exact absurd rfl hst
    | connecting => rfl
    | closing => rfl
    | closed => rfl
  · intro lastInbound now
    simp [channelDead, heartbeatTimeoutMs]

/-- Witness for C7: a closed socket emits nothing, a concrete heartbeat
message carries the client time, and the dead-channel rule at the 60 s
boundary. -/
theorem c7_heartbeat_liveness_witness :
    sendHeartbeat (some (WSRef.mk ReadyState.closed)) "CT" 0 "r" "T" = [] ∧
    getField (createHeartbeatMessage "CT" 0 "r" "T") "type" = some (Json.str "heartbeat") ∧
    channelDead 0 60000 = true ∧
    channelDead 0 59999 = false := by
  refine ⟨c7_heartbeat_liveness.2.2.2.1 ReadyState.closed "CT" 0 "r" "T" (by decide),
    (c7_heartbeat_liveness.2.2.1 "CT" 0 "r" "T").1, ?_, rfl⟩
  exact (c7_heartbeat_liveness.2.2.2.2.2.2 0 60000).mpr (by omega)

/-- C8: the HITL response message has type `"hitl_response_submitted"` and a
data mapping of exactly the shape
`{checkpoint_id, response_data: {approved, feedback}}`, with
`checkpoint_id` the given id, `approved` the given flag, and `feedback` the
given feedback (an omitted feedback leaves the field `undefined`, i.e.
absent). -/
theorem c8_hitl_response_shape (cid : String) (approved : Bool) (fb : Option String)
    (now : Nat) (rand iso : String) :
    getField (createHITLResponseMessage cid approved fb now rand iso) "type" =
        some (Json.str "hitl_response_submitted") ∧
    getField (createHITLResponseMessage cid approved fb now rand iso) "data" =
        some (Json.obj [("checkpoint_id", Json.str cid),
          ("response_data", hitlResponseData approved fb)]) ∧
    getField (Json.obj [("checkpoint_id", Json.str cid),
        ("response_data", hitlResponseData approved fb)]) "checkpoint_id" =
      some (Json.str cid) ∧
    getField (Json.obj [("checkpoint_id", Json.str cid),
        ("response_data", hitlResponseData approved fb)]) "response_data" =
      some (hitlResponseData approved fb) ∧
    getField (hitlResponseData approved fb) "approved" = some (Json.bool approved) ∧
    getField (hitlResponseData approved fb) "feedback" = fb.map Json.str := by
  refine ⟨getField_csm_type MessageType.hitlResponseSubmitted
      (Json.obj [("checkpoint_id", Json.str cid),
        ("response_data", hitlResponseData approved fb)]) none now rand iso,
    getField_csm_data MessageType.hitlResponseSubmitted
      (Json.obj [("checkpoint_id", Json.str cid),
        ("response_data", hitlResponseData approved fb)]) none now rand iso,
    ?_, ?_, ?_, ?_⟩
  · simp [getField, lookupLast]
  · simp [getField, lookupLast]
  · cases fb <;> simp [hitlResponseData, getField, lookupLast]
  · cases fb <;> simp [hitlResponseData, getField, lookupLast]

theorem validateMessage_false_of_not_true (m : Json) (h : ¬ validateMessage m = true) :
    validateMessage m = false := by
  cases hv : validateMessage m with
  | true => exact absurd hv h
  | false => rfl

/-- C9: every frame actually transmitted on the outbound send paths is the
serialization of a structurally valid message — `sendRawMessage` validates
before transmitting and returns `false` transmitting nothing when
validation fails, and `sendMessage` only transmits messages built by
`createStandardMessage`, which are valid whenever `data` is a non-null
object (the TypeScript `Record<string, any>` contract). -/
theorem c9_outbound_frames_valid :
    (∀ (ws : Option WSRef) (m : Json), validateMessage m = false →
      sendRawMessage ws m = (false, [])) ∧
    (∀ (ws : Option WSRef) (m : Json) (frame : String),
      frame ∈ (sendRawMessage ws m).2 →
      validateMessage m = true ∧ frame = printJson m) ∧
    (∀ (ws : Option WSRef) (type : MessageType) (data : Json) (now : Nat)
        (rand iso : String) (frame : String),
      jsTypeof data = "object" → isNull data = false →
      frame ∈ (sendMessage ws type data now rand iso).2 →
      ∃ m, frame = printJson m ∧ validateMessage m = true) := by
  refine ⟨?_, ?_, ?_⟩
  · intro ws m hv
    match ws with
    | none => rfl
    | some w =>
      obtain ⟨st⟩ := w
      cases st with
      | opened => simp [sendRawMessage, hv]
      | connecting => rfl
      | closing => rfl
      | closed => rfl
  · intro ws m frame hmem
    match ws with
    | none => simp [sendRawMessage] at hmem
    | some w =>
      obtain ⟨st⟩ := w
      cases st with
      | opened =>
        by_cases hv : validateMessage m = true
        · refine ⟨hv, ?_⟩
          simp [sendRawMessage, hv] at hmem
          exact hmem
        · have hv2 := validateMessage_false_of_not_true m hv
          simp [sendRawMessage, hv2] at hmem
      | connecting => simp [sendRawMessage] at hmem
      | closing => simp [sendRawMessage] at hmem
      | closed => simp [sendRawMessage] at hmem
  · intro ws type data now rand iso frame hobj hnn hmem
    match ws with
    | none => simp [sendMessage] at hmem
    | some w =>
      obtain ⟨st⟩ := w
      cases st with
      | opened =>
        refine ⟨createStandardMessage type data none now rand iso, ?_,
          validateMessage_csm type data none now rand iso hobj hnn⟩
        simp [sendMessage] at hmem
        exact hmem
      | connecting => simp [sendMessage] at hmem
      | closing => simp [sendMessage] at hmem
      | closed => simp [sendMessage] at hmem

/-- Witness for C9: the invalid message is dropped without transmission on
an open socket, and a concrete `sendMessage` frame is the serialization of
a valid message. -/
theorem c9_outbound_frames_valid_witness :
    validateMessage c9BadMsg = false ∧
    sendRawMessage (some (WSRef.mk ReadyState.opened)) c9BadMsg = (false, []) ∧
    (jsTypeof (Json.obj ([] : List (String × Json))) = "object" ∧
      ∃ m, printJson (createStandardMessage MessageType.heartbeat
          (Json.obj ([] : List (String × Json))) none 0 "r" "T") = printJson m ∧
        validateMessage m = true) := by
  refine ⟨rfl, c9_outbound_frames_valid.1 (some (WSRef.mk ReadyState.opened)) c9BadMsg rfl,
    rfl, ?_⟩
  exact c9_outbound_frames_valid.2.2 (some (WSRef.mk ReadyState.opened))
    MessageType.heartbeat (Json.obj ([] : List (String × Json))) 0 "r" "T"
    (printJson (createStandardMessage MessageType.heartbeat
      (Json.obj ([] : List (String × Json))) none 0 "r" "T")) rfl rfl (by simp [sendMessage])

theorem isNull_false_of_getField (d : Json) (k : String) (e : Json)
    (h : getField d k = some e) : isNull d = false := by
  cases d <;> simp_all [getField, isNull]

/-- C10: for interface-conformant messages (`type` a present string, `data`
a present non-null value — the TypeScript `StandardWebSocketMessage`
contract), `extractErrorDetails` throws exactly when the type is not
`"error"`; on `"error"` messages it returns, without throwing, a record
whose `error` equals `data.error` — defaulting to `"Unknown error"` when
that field is absent or falsy — with `details` and `messageType` copied
from `data.details` and `data.message_type`.  The embedding is a pure
function, so the input message is left unchanged. -/
theorem c10_extract_error_details :
    (∀ (m : Json) (t : String), getField m "type" = some (Json.str t) →
      (∃ d, getField m "data" = some d ∧ isNull d = false) →
      ((extractErrorDetails m).isOk = true ↔ t = "error")) ∧
    (∀ (m : Json) (d : Json), getField m "type" = some (Json.str "error") →
      getField m "data" = some d → isNull d = false →
      extractErrorDetails m = Except.ok (ErrorDetails.mk
        (jsOrDefault (getField d "error") (Json.str "Unknown error"))
        (getField d "details") (getField d "message_type"))) ∧
    (∀ (m : Json) (d e : Json), getField m "type" = some (Json.str "error") →
      getField m "data" = some d → getField d "error" = some e → truthy e = true →
      ∃ r, extractErrorDetails m = Except.ok r ∧ r.error = e) ∧
    (∀ (m : Json) (d : Json), getField m "type" = some (Json.str "error") →
      getField m "data" = some d → isNull d = false →
      truthyOpt (getField d "error") = false →
      ∃ r, extractErrorDetails m = Except.ok r ∧ r.error = Json.str "Unknown error") := by
  have heq : ∀ (m : Json) (t : String), getField m "type" = some (Json.str t) →
      extractErrorDetails m =
        (if t ≠ "error" then Except.error "Message is not an error message"
         else
           match getField m "data" with
           | none => Except.error "TypeError"
           | some d =>
             if isNull d then Except.error "TypeError"
             else Except.ok (ErrorDetails.mk
               (jsOrDefault (getField d "error") (Json.str "Unknown error"))
               (getField d "details") (getField d "message_type"))) := by
    intro m t ht
    unfold extractErrorDetails
    rw [ht]
  have hok : ∀ (m : Json) (d : Json), getField m "type" = some (Json.str "error") →
      getField m "data" = some d → isNull d = false →
      extractErrorDetails m = Except.ok (ErrorDetails.mk
        (jsOrDefault (getField d "error") (Json.str "Unknown error"))
        (getField d "details") (getField d "message_type")) := by
    intro m d ht hd hdn
    rw [heq m "error" ht, if_neg (by simp)]
    simp only [hd, hdn]
    simp
  refine ⟨?_, hok, ?_, ?_⟩
  · intro m t ht ⟨d, hd, hdn⟩
    by_cases he : t = "error"
    · subst he
      rw [hok m d ht hd hdn]
      exact iff_of_true rfl rfl
    · rw [heq m t ht, if_pos he]
      simp [he, Except.isOk]
      rfl
  · intro m d e ht hd he htr
    refine ⟨ErrorDetails.mk e (getField d "details") (getField d "message_type"), ?_, rfl⟩
    rw [hok m d ht hd (isNull_false_of_getField d "error" e he)]
    rw [show jsOrDefault (getField d "error") (Json.str "Unknown error") = e from by
      rw [he]; simp [jsOrDefault, htr]]
  · intro m d ht hd hdn hfalsy
    refine ⟨ErrorDetails.mk (Json.str "Unknown error") (getField d "details")
      (getField d "message_type"), ?_, rfl⟩
    rw [hok m d ht hd hdn]
    rw [show jsOrDefault (getField d "error") (Json.str "Unknown error") =
        Json.str "Unknown error" from ?_]
    cases hge : getField d "error" with
    | none => simp [jsOrDefault]
    | some e =>
      rw [hge] at hfalsy
      simp [truthyOpt] at hfalsy
      simp [jsOrDefault, hfalsy]

/-- Witness for C10: the concrete error message extracts its fields without
throwing, and the concrete non-error message throws. -/
theorem c10_extract_error_details_witness :
    (getField c10ErrMsg "type" = some (Json.str "error") ∧
      ∃ r, extractErrorDetails c10ErrMsg = Except.ok r ∧
        r.error = Json.str "Handler execution failed") ∧
    (getField c10NonErrMsg "type" = some (Json.str "heartbeat") ∧
      (extractErrorDetails c10NonErrMsg).isOk = false) := by
  refine ⟨⟨rfl, ?_⟩, ⟨rfl, ?_⟩⟩
  · exact c10_extract_error_details.2.2.1 c10ErrMsg
      (Json.obj [("error", Json.str "Handler execution failed"),
        ("details", Json.str "boom")])
      (Json.str "Handler execution failed") rfl rfl rfl rfl
  · have h := c10_extract_error_details.1 c10NonErrMsg "heartbeat" rfl
      ⟨Json.obj [], rfl, rfl⟩
    cases hk : (extractErrorDetails c10NonErrMsg).isOk with
    | false => rfl
    | true => exact absurd (h.mp hk) (by decide)

end EnsimuSpace
